import Mathlib

/-
Verification of the Piff PSF model-fitting core (piff/gsobject_model.py,
piff/optatmo.py, piff/util.py) against its natural-language specification.

The Python code is shallowly embedded over exact rationals.  IEEE NaN is
modelled explicitly by the `Val` type (and `PyVal`, which also carries the
Python value `None`); machine floats are modelled by `ℚ`, so all identities
proved here are identities of the exact arithmetic the code implements.
-/

/-- A float value that may be NaN.  `numpy` comparisons `x != x` detect NaN;
all arithmetic on NaN propagates NaN. -/
inductive Val where
  | nan : Val
  | num : ℚ → Val
deriving DecidableEq

/-- The Python test `x == x`, which is `False` exactly on NaN. -/
def Val.selfEq : Val → Bool
  | .nan => false
  | .num _ => true

def Val.sub : Val → Val → Val
  | .num a, .num b => .num (a - b)
  | _, _ => .nan

def Val.mul : Val → Val → Val
  | .num a, .num b => .num (a * b)
  | _, _ => .nan

/-- Division; a zero denominator is mapped to `nan` (IEEE would give an
infinity or `nan`; the claims settled here never distinguish the two). -/
def Val.div : Val → Val → Val
  | .num a, .num b => if b = 0 then .nan else .num (a / b)
  | _, _ => .nan

/-- Numeric content of a finite value (`0` as a dummy for `nan`; only applied
to values already known to be finite). -/
def Val.toQ : Val → ℚ
  | .nan => 0
  | .num q => q

/-- A Python float-or-None value as passed to `update_psf_params`:
`r0`, `g1`, `g2` may be a float, NaN, or `None` (from `disable_atmosphere`). -/
inductive PyVal where
  | nan : PyVal
  | none : PyVal
  | num : ℚ → PyVal
deriving DecidableEq

/-- The Python test `x == x`: `False` on NaN, `True` on `None` (so `None`
counts as an update in `update_psf_params`) and on every number. -/
def PyVal.selfEq : PyVal → Bool
  | .nan => false
  | .none => true
  | .num _ => true

/-
OpticalWavefrontPSF.update_psf_params (optatmo.py lines 1247-1343).

The mutable state it touches: `self.model.kolmogorov_kwargs['r0']`,
`self.model.kwargs['r0']`, `self.model.g1`, `self.model.g2`,
`self.interp.misalignment` (an 8 x 3 array, rows z04..z11, columns d, x, y)
and the call counter `self._n_iter`.  The `rest` field stands for all other
model and interpolator state, which the method does not assign to.
-/
structure OptModelState (α : Type) where
  kolmogorov_r0 : PyVal
  kwargs_r0 : PyVal
  g1 : PyVal
  g2 : PyVal
  misalignment : Fin 8 → Fin 3 → Val
  n_iter : ℤ
  rest : α

/-- Embedding of `OpticalWavefrontPSF.update_psf_params`: each `if v == v:`
guard updates the corresponding attribute, the misalignment is updated by
`np.where(misalignment == misalignment, misalignment, old_misalignment)`,
and `self._n_iter` is incremented. -/
def update_psf_params {α : Type} (r0 g1 g2 : PyVal) (z : Fin 8 → Fin 3 → Val)
    (st : OptModelState α) : OptModelState α :=
  let st1 := if r0.selfEq then { st with kolmogorov_r0 := r0, kwargs_r0 := r0 } else st
  let st2 := if g1.selfEq then { st1 with g1 := g1 } else st1
  let st3 := if g2.selfEq then { st2 with g2 := g2 } else st2
  let st4 := { st3 with
               misalignment := fun i j =>
                 if (z i j).selfEq then z i j else st3.misalignment i j }
  { st4 with n_iter := st4.n_iter + 1 }

/-
OpticalWavefrontPSF shape chi-square (optatmo.py lines 1345-1392) and the
weight normalization done by the constructor (lines 318-320).
-/

/-- One star's row of data for the shape chi-square: the shapes measured on
the drawn model star, the reference shapes, and the reference shape errors
(each possibly NaN). -/
structure ShapeRow where
  model : Fin 3 → Val
  actual : Fin 3 → Val
  err : Fin 3 → Val

/-- Per-star, per-shape `chi_l = (shapes - actual_shapes) / (error_estimate * errors)`. -/
def chi_row (ee : ℚ) (r : ShapeRow) : Fin 3 → Val :=
  fun j => Val.div (Val.sub (r.model j) (r.actual j)) (Val.mul (Val.num ee) (r.err j))

/-- Per-star, per-shape `chi2_l = chi_l ** 2`. -/
def chi2_row (ee : ℚ) (r : ShapeRow) : Fin 3 → Val :=
  fun j => Val.mul (chi_row ee r j) (chi_row ee r j)

/-- The row filter `indx = ~np.any(chi2_l != chi2_l, axis=1)`. -/
def row_ok (ee : ℚ) (r : ShapeRow) : Bool :=
  decide (∀ j : Fin 3, chi2_row ee r j ≠ Val.nan)

/-- Columnwise `chi2 = np.sum(chi2_l[indx], axis=0)`. -/
def chi2_shapes (ee : ℚ) (rows : List ShapeRow) : Fin 3 → ℚ :=
  fun j => ((rows.filter (row_ok ee)).map (fun r => (chi2_row ee r j).toQ)).sum

/-- The scored value
`unreduced_chi2 = np.sum(self.weights * chi2) * 1. / np.sum(self.weights)`. -/
def unreduced_chi2 (w : Fin 3 → ℚ) (ee : ℚ) (rows : List ShapeRow) : ℚ :=
  (∑ j : Fin 3, w j * chi2_shapes ee rows j) / (∑ j : Fin 3, w j)

/-- The constructor's weight normalization `self.weights /= self.weights.sum()`. -/
def normalize_weights (w : Fin 3 → ℚ) : Fin 3 → ℚ :=
  fun j => w j / (∑ i : Fin 3, w i)

/-- The chi-square as scored by a PSF constructed with raw weight vector `w0`. -/
def psf_chi2 (w0 : Fin 3 → ℚ) (ee : ℚ) (rows : List ShapeRow) : ℚ :=
  unreduced_chi2 (normalize_weights w0) ee rows

/-
GSObjectModel.moment_fit (gsobject_model.py lines 63-138) and the galsim
shear-composition operator it relies on.
-/

/-- A complex number over ℚ, as used for the reduced shear `g = g1 + i g2`. -/
structure Cx where
  re : ℚ
  im : ℚ
deriving DecidableEq

def Cx.add (a b : Cx) : Cx := ⟨a.re + b.re, a.im + b.im⟩

def Cx.neg (a : Cx) : Cx := ⟨-a.re, -a.im⟩

def Cx.mul (a b : Cx) : Cx := ⟨a.re * b.re - a.im * b.im, a.re * b.im + a.im * b.re⟩

def Cx.conj (a : Cx) : Cx := ⟨a.re, -a.im⟩

def Cx.normSq (a : Cx) : ℚ := a.re ^ 2 + a.im ^ 2

def Cx.dv (a b : Cx) : Cx :=
  ⟨(a.re * b.re + a.im * b.im) / b.normSq, (a.im * b.re - a.re * b.im) / b.normSq⟩

def Cx.one : Cx := ⟨1, 0⟩

/-- The galsim shear-composition operator: for reduced shears as complex
numbers, `a + b = (a + b) / (1 + conj(a) * b)`.  This is NOT componentwise
addition of `(g1, g2)`. -/
def shear_add (a b : Cx) : Cx :=
  Cx.dv (Cx.add a b) (Cx.add Cx.one (Cx.mul (Cx.conj a) b))

/-- `a - b = a + (-b)` on galsim shears. -/
def shear_sub (a b : Cx) : Cx := shear_add a (Cx.neg b)

/-- A set of HSM moments `(flux, cenu, cenv, size, g1, g2)`. -/
structure Moments where
  flux : ℚ
  cenu : ℚ
  cenv : ℚ
  size : ℚ
  g1 : ℚ
  g2 : ℚ
deriving DecidableEq

/-- Model-transformation parameters stored in `StarFit.params`: either
`[scale, g1, g2]` (force_model_center) or `[du, dv, scale, g1, g2]`. -/
inductive FitParams where
  | centered (scale g1 g2 : ℚ) : FitParams
  | off (du dv scale g1 g2 : ℚ) : FitParams
deriving DecidableEq

/-- Unpack `(du, dv, scale, g1, g2)` from the star's fit the way
`moment_fit` does: from `star.fit.center` plus 3 params when the model
center is forced, from 5 params otherwise.  A layout mismatch is a Python
unpacking error, modelled as `none`. -/
def readParams (fmc : Bool) (p : FitParams) (center : ℚ × ℚ) :
    Option (ℚ × ℚ × ℚ × ℚ × ℚ) :=
  match fmc, p with
  | true, .centered scale g1 g2 => some (center.1, center.2, scale, g1, g2)
  | false, .off du dv scale g1 g2 => some (du, dv, scale, g1, g2)
  | _, _ => Option.none

/-- Embedding of `GSObjectModel.moment_fit` (lines 108-138): raises
`ModelFitError` when the re-measured model moments have nonzero status flag,
otherwise applies the multiplicative flux and size corrections, additive
centroid corrections, and the shear-composition update
`param_shear += (shape - ref_shape)`. -/
def moment_fit (fmc : Bool) (dataM modelM : Moments) (flag : ℤ)
    (fitFlux : ℚ) (fitCenter : ℚ × ℚ) (fitP : FitParams) :
    Except Unit (ℚ × ℚ × ℚ × ℚ × ℚ × ℚ) :=
  if flag ≠ 0 then Except.error () else
  match readParams fmc fitP fitCenter with
  | Option.none => Except.error ()
  | some (du, dv, scale, pg1, pg2) =>
    let shape : Cx := ⟨dataM.g1, dataM.g2⟩
    let refShape : Cx := ⟨modelM.g1, modelM.g2⟩
    let newShear := shear_add ⟨pg1, pg2⟩ (shear_sub shape refShape)
    Except.ok (fitFlux * (dataM.flux / modelM.flux),
               du + (dataM.cenu - modelM.cenu),
               dv + (dataM.cenv - modelM.cenv),
               scale * (dataM.size / modelM.size),
               newShear.re, newShear.im)

/-
OpticalWavefrontPSF._measure_shape_errors (optatmo.py lines 473-490).
-/

/-- The exception kinds caught by the population-level driver around
`hsm_error`. -/
inductive HsmErrKind where
  | valueError : HsmErrKind
  | modelFitError : HsmErrKind
  | runtimeError : HsmErrKind
deriving DecidableEq

/-- Embedding of `OpticalWavefrontPSF._measure_shape_errors`: the per-star
call of `hsm_error` (abstracted as `f`, returning the six sigmas or raising
one of the caught exception kinds) is wrapped in try/except; a caught
failure appends `[np.nan, np.nan, np.nan]` and the loop continues. -/
def measure_shape_errors {α : Type} (f : α → Except HsmErrKind (ℚ × ℚ × ℚ × ℚ × ℚ × ℚ))
    (stars : List α) : List (Val × Val × Val) :=
  stars.map (fun s =>
    match f s with
    | Except.ok (_, _, _, se0, se1, se2) => (Val.num se0, Val.num se1, Val.num se2)
    | Except.error _ => (Val.nan, Val.nan, Val.nan))

/-
Star, StarFit and the pixel-level fitting operations of GSObjectModel
(gsobject_model.py).  Pixel images are flattened lists of rationals.
-/

/-- The StarFit record (star.py): parameter vector, flux, centroid offset,
chi-square, degrees of freedom and the optional alpha/beta covariance terms.
`params = none` models the uninitialized `params=None` state. -/
structure StarFit where
  params : Option FitParams
  flux : ℚ
  center : ℚ × ℚ
  chisq : Option ℚ
  dof : Option ℤ
  alpha : Option ℚ
  beta : Option ℚ
deriving DecidableEq

/-- A value stored in a star's properties dict. -/
inductive PropVal where
  | q (x : ℚ) : PropVal
  | b (x : Bool) : PropVal
  | moms (m : Moments) : PropVal
deriving DecidableEq

/-- A Python dict as an insertion-ordered association list. -/
abbrev Props := List (String × PropVal)

/-- Python dict assignment `d[k] = v`: overwrite in place when the key is
present, append otherwise (Python dicts preserve insertion order). -/
def setProp (p : Props) (k : String) (v : PropVal) : Props :=
  if (p.lookup k).isSome then
    p.map (fun kv => if kv.1 = k then (k, v) else kv)
  else p ++ [(k, v)]

/-- A Star.  `dataId` identifies the underlying StarData's properties dict
among the caller-visible objects (the heap below); `none` marks a fresh,
unaliased copy.  `props` is the dict's current value, `image` and `weight`
the flattened pixel arrays, `fit` the attached fit record. -/
structure StarR where
  dataId : Option ℕ
  props : Props
  image : List ℚ
  weight : List ℚ
  fit : StarFit
deriving DecidableEq

instance : Inhabited StarR :=
  ⟨⟨Option.none, [], [], [],
    ⟨Option.none, 0, (0, 0), Option.none, Option.none, Option.none, Option.none⟩⟩⟩

/-- Modelled from the spec: `Star.flux` (star.py is not under src/) reads the
flux of the attached fit record; the data model lists the flux scalar as an
attribute of the FitRecord. -/
def StarR.flux (s : StarR) : ℚ := s.fit.flux

/-- The rendering collaborator: given the fit params, center and flux,
produce the model pixel image.  It abstracts `galsim.drawImage` on the
dilated/sheared/shifted profile, including the optional convolution with an
`other_model` profile. -/
abbrev RenderFn := Option FitParams → ℚ × ℚ → ℚ → List ℚ

/-- Pointwise product of two pixel arrays. -/
def prodL (a b : List ℚ) : List ℚ := List.zipWith (fun x y => x * y) a b

/-- Pointwise difference of two pixel arrays. -/
def subL (a b : List ℚ) : List ℚ := List.zipWith (fun x y => x - y) a b

/-- `np.sum(w * a * b)` over pixels. -/
def wsum (w a b : List ℚ) : ℚ := (prodL w (prodL a b)).sum

/-- `np.count_nonzero` of the weight array. -/
def countNonzero (l : List ℚ) : ℤ :=
  ((l.filter (fun x => decide (x ≠ 0))).length : ℤ)

/-- The closed-form flux ratio
`flux_ratio = np.sum(weight * image * model) / np.sum(weight * model ** 2)`. -/
def flux_quot (w d m : List ℚ) : ℚ := wsum w d m / wsum w m m

/-- The result object returned by `lmfit.minimize` as used here: the six
best-fit values plus the optimizer's internally accumulated `chisqr`. -/
structure OptimizerResult where
  flux : ℚ
  du : ℚ
  dv : ℚ
  scale : ℚ
  g1 : ℚ
  g2 : ℚ
  internalChisq : ℚ

/-- The `(flux, du, dv, scale, g1, g2)` value tuple of an optimizer result. -/
def optTuple (r : OptimizerResult) : ℚ × ℚ × ℚ × ℚ × ℚ × ℚ :=
  (r.flux, r.du, r.dv, r.scale, r.g1, r.g2)

/-- The no-center branch of `GSObjectModel.reflux` (lines 390-410): render
the model at the current fit, compute the closed-form flux ratio, rescale
the flux, recompute the chi-square against the flux-scaled model, and set
`dof = count_nonzero(weight) - 1`; params, center, alpha, beta carry over. -/
def refluxNC (render : RenderFn) (s : StarR) : StarR :=
  let m := render s.fit.params s.fit.center s.fit.flux
  let fr := flux_quot s.weight s.image m
  { s with fit := { params := s.fit.params,
                    flux := s.flux * fr,
                    center := s.fit.center,
                    chisq := some ((prodL s.weight
                      ((subL s.image (m.map (fun x => fr * x))).map
                        (fun x => x * x))).sum),
                    dof := some (countNonzero s.weight - 1),
                    alpha := s.fit.alpha,
                    beta := s.fit.beta } }

/-- `GSObjectModel.reflux` (lines 355-410).  `do_center = fit_center and
self._force_model_center` selects the lmfit branch (abstracted by
`lmfitRes`, whose `chisqr` is recorded as the new chi-square); otherwise the
closed-form single-ratio branch runs. -/
def reflux (lmfitRes : StarR → OptimizerResult) (render : RenderFn)
    (fit_center fmc : Bool) (s : StarR) : StarR :=
  if fit_center && fmc then
    let res := lmfitRes s
    { s with fit := { params := s.fit.params,
                      flux := res.flux,
                      center := (res.du, res.dv),
                      chisq := some res.internalChisq,
                      dof := some (countNonzero s.weight - 3),
                      alpha := s.fit.alpha,
                      beta := s.fit.beta } }
  else refluxNC render s

/-- The params/center packing of `GSObjectModel.fit` (lines 315-320): with a
forced model center the fitted `(du, dv)` become the center and the params
are `[scale, g1, g2]`; otherwise the params are `[du, dv, scale, g1, g2]`
and the center is `(0, 0)`. -/
def fit_pack (fmc : Bool) (t : ℚ × ℚ × ℚ × ℚ × ℚ × ℚ) : FitParams × (ℚ × ℚ) :=
  match t with
  | (_, du, dv, scale, g1, g2) =>
    if fmc then (FitParams.centered scale g1 g2, (du, dv))
    else (FitParams.off du dv scale g1 g2, (0, 0))

/-- The tail of `GSObjectModel.fit` (lines 310-333): given the six values
returned by the chosen fitting mode (fast `moment_fit` or slow `lmfit`),
pack params and center, draw a fresh model image at those values, and
recompute `chisq = np.sum(weight * (image - model) ** 2)` and
`dof = np.count_nonzero(weight) - self._nparams`. -/
def fit_tail (fmc : Bool) (render : RenderFn) (t : ℚ × ℚ × ℚ × ℚ × ℚ × ℚ)
    (s : StarR) : StarR :=
  let flux := t.1
  let pc := fit_pack fmc t
  let model := render (some pc.1) pc.2 flux
  let chisq := (prodL s.weight ((subL s.image model).map (fun x => x * x))).sum
  let dof := countNonzero s.weight - (if fmc then 3 else 5)
  { s with fit := { params := some pc.1, flux := flux, center := pc.2,
                    chisq := some chisq, dof := some dof,
                    alpha := Option.none, beta := Option.none } }

/-
Caller-visible mutable state and the driver operations built on the above:
GSObjectModel.with_hsm / initialize / fit (gsobject_model.py lines 274-353)
and OpticalWavefrontPSF._fit_init (optatmo.py lines 553-616).
-/

/-- The caller-visible mutable state: for each star object identity, the
current contents of that star's `StarData.properties` dict.  Writes through
any alias of the object are visible here. -/
structure Heap where
  props : ℕ → Props

/-- A Python assignment `star.data.properties[k] = v`: the dict inside the
star object is updated in place, so the write lands in the heap when the
star is a caller-aliased object (`dataId = some i`), and in the star's own
view either way. -/
def writeProp (h : Heap) (s : StarR) (k : String) (v : PropVal) : Heap × StarR :=
  let s2 := { s with props := setProp s.props k v }
  match s.dataId with
  | some i => (⟨fun j => if j = i then setProp (h.props i) k v else h.props j⟩, s2)
  | Option.none => (h, s2)

/-- `GSObjectModel.with_hsm` (lines 274-286).  The `hasattr` guard on a dict
is always false, so the moments are always (re)measured (`hsmv` abstracts
`util.hsm`); a nonzero flag raises RuntimeError.  Modelled from the spec:
`StarData.copy` (star.py is not under src/) follows the spec's copy-on-write
reading, so the copied properties dict written by
`sd.properties['hsm'] = ...` is a fresh object unaliased from the caller's
star — hence `dataId := none` and no heap write. -/
def with_hsm (hsmv : StarR → Moments × ℤ) (h : Heap) (s : StarR) :
    Heap × Except Unit StarR :=
  let mf := hsmv s
  (h, if mf.2 ≠ 0 then Except.error () else
      Except.ok { s with dataId := Option.none,
                         props := setProp s.props "hsm" (PropVal.moms mf.1) })

/-- `moment_fit` at star level: the data moments are read from
`star.data.properties['hsm']`, the model moments come from drawing the
model at the current fit and re-measuring it (`modelHsm`); a missing hsm
entry or unset params is a Python error. -/
def momentFitStar (modelHsm : StarR → Moments × ℤ) (fmc : Bool) (s : StarR) :
    Except Unit (ℚ × ℚ × ℚ × ℚ × ℚ × ℚ) :=
  match s.props.lookup "hsm", s.fit.params with
  | some (PropVal.moms dataM), some fp =>
    let mm := modelHsm s
    moment_fit fmc dataM mm.1 mm.2 s.fit.flux s.fit.center fp
  | _, _ => Except.error ()

/-- The external collaborators of the GSObjectModel driver: `util.hsm` on
the data image, hsm on the drawn model star, and the renderer. -/
structure Collab where
  hsmv : StarR → Moments × ℤ
  modelHsm : StarR → Moments × ℤ
  render : RenderFn

/-- The default parameter seeding of `GSObjectModel.initialize` (lines
344-350): unit scale, zero shear (plus zero offsets when the center is
free), flux 1, center (0, 0). -/
def default_seed (fmc : Bool) (s : StarR) : StarR :=
  { s with fit := { params := some (if fmc then FitParams.centered 1 0 0
                                    else FitParams.off 0 0 1 0 0),
                    flux := 1, center := (0, 0),
                    chisq := Option.none, dof := Option.none,
                    alpha := Option.none, beta := Option.none } }

/-- `GSObjectModel.initialize` (lines 335-353), with the inner
`self.fit(star, fastfit=True)` call unrolled one level: `fit` first
re-enters `initialize` (the `hasattr` guard on a dict is always false),
which — params now being set — reduces to a second `with_hsm` copy followed
by `reflux(fit_center=False)`; then the fast moment fit and the chi-square
recomputation run, and the outer `initialize` ends with another
`reflux(fit_center=False)`. -/
def initStar (c : Collab) (fmc : Bool) (h : Heap) (s : StarR) :
    Heap × Except Unit StarR :=
  let w1 := with_hsm c.hsmv h s
  match w1.2 with
  | Except.error e => (w1.1, Except.error e)
  | Except.ok s1 =>
    if s1.fit.params = Option.none then
      let w2 := with_hsm c.hsmv w1.1 (default_seed fmc s1)
      match w2.2 with
      | Except.error e => (w2.1, Except.error e)
      | Except.ok s3 =>
        let s4 := refluxNC c.render s3
        match momentFitStar c.modelHsm fmc s4 with
        | Except.error e => (w2.1, Except.error e)
        | Except.ok t =>
          (w2.1, Except.ok (refluxNC c.render (fit_tail fmc c.render t s4)))
    else
      (w1.1, Except.ok (refluxNC c.render s1))

/-- `GSObjectModel.fit` with `fastfit=True` (lines 288-333): the
(always-taken) `initialize` bootstrap, then the fast moment fit and the
chi-square / dof recomputation of `fit_tail`. -/
def fit_fast (c : Collab) (fmc : Bool) (h : Heap) (s : StarR) :
    Heap × Except Unit StarR :=
  let r1 := initStar c fmc h s
  match r1.2 with
  | Except.error e => (r1.1, Except.error e)
  | Except.ok s1 =>
    match momentFitStar c.modelHsm fmc s1 with
    | Except.error e => (r1.1, Except.error e)
    | Except.ok t => (r1.1, Except.ok (fit_tail fmc c.render t s1))

/-- Heap-threaded `reflux`: the source performs no property-dict
assignment, so the caller-visible state passes through unchanged. -/
def refluxH (lmfitRes : StarR → OptimizerResult) (render : RenderFn)
    (fit_center fmc : Bool) (h : Heap) (s : StarR) : Heap × StarR :=
  (h, reflux lmfitRes render fit_center fmc s)

/-- Lines 570-572 of `_fit_init`: write each star's focal coordinates into
its properties dict in place (`zip` truncates at the shorter list, as in
Python). -/
def annotate_focal : Heap → List StarR → List ℚ → List ℚ → Heap × List StarR
  | h, s :: ss, x :: xs, y :: ys =>
    let p1 := writeProp h s "focal_x" (PropVal.q x)
    let p2 := writeProp p1.1 p1.2 "focal_y" (PropVal.q y)
    let rest := annotate_focal p2.1 ss xs ys
    (rest.1, p2.2 :: rest.2)
  | h, ss, _, _ => (h, ss)

/-- Lines 600-603 of `_fit_init`: write the per-star
`used_in_optical_wavefront` flag into the input stars in place. -/
def annotate_used : Heap → List StarR → List Bool → Heap × List StarR
  | h, s :: ss, bv :: bs =>
    let p1 := writeProp h s "used_in_optical_wavefront" (PropVal.b bv)
    let rest := annotate_used p1.1 ss bs
    (rest.1, p1.2 :: rest.2)
  | h, ss, _ => (h, ss)

/-- `np.abs(v) > m` on a possibly-NaN value (false for NaN). -/
def absGt (v : Val) (m : ℚ) : Bool :=
  match v with
  | Val.nan => false
  | Val.num q => decide (m < |q|)

/-- The star cut of `_fit_init` (lines 588-591): a star is cut when its
measured shape row or error row contains a NaN (`x != x`), or a finite
shape component exceeds the `max_shapes` threshold. -/
def starCut (maxS : Fin 3 → ℚ) (sh er : Fin 3 → Val) : Bool :=
  decide (∃ j : Fin 3, sh j = Val.nan ∨ er j = Val.nan ∨ absGt (sh j) (maxS j) = true)

/-- `arr[mask]` for a boolean mask of the same length. -/
def applyMask {α : Type} : List α → List Bool → List α
  | x :: xs, bv :: bs => if bv then x :: applyMask xs bs else applyMask xs bs
  | _, _ => []

/-- `self._fit_stars = [stars[i] for i in choice]`. -/
def subsample (stars1 : List StarR) (choice : List ℕ) : List StarR :=
  choice.map (fun i => stars1.getD i default)

/-- The outputs of `_fit_init` besides the mutated stars: the surviving fit
stars, their stored shape and error arrays, the logged cut count
`sum(~indx)`, and the per-star `use_stars` flags. -/
structure FitInitRes where
  fitStars : List StarR
  shapes : List (Fin 3 → Val)
  errors : List (Fin 3 → Val)
  cutCount : ℕ
  useFlags : List Bool

/-- `OpticalWavefrontPSF._fit_init` (lines 553-616) for a given subsample
index list `choice` (the sorted output of `np.random.choice`, or
`np.arange(len(stars))` when no subsampling applies): annotate focal
coordinates on the input stars, subsample, measure shapes and errors
(`measS` / `measE` abstract the per-star HSM measurements of
`_measure_shapes` / `_measure_shape_errors`, with NaN entries for failed
stars), drop stars failing the finite/threshold cut from the fit star set
and the stored arrays, log `sum(~indx)` as the cut count, compute
`use_stars = np.in1d(np.arange(len(stars)), choice[indx])`, and annotate
every input star with its flag. -/
def fit_init (measS measE : StarR → Fin 3 → Val) (maxS : Fin 3 → ℚ)
    (fxs fys : List ℚ) (choice : List ℕ) (h : Heap) (stars : List StarR) :
    Heap × List StarR × FitInitRes :=
  let af := annotate_focal h stars fxs fys
  let stars1 := af.2
  let sub := subsample stars1 choice
  let shapes := sub.map measS
  let errors := sub.map measE
  let indx := List.zipWith (fun sh er => !starCut maxS sh er) shapes errors
  let fitStars := applyMask sub indx
  let shapes2 := applyMask shapes indx
  let errors2 := applyMask errors indx
  let cutCount := (indx.filter (fun bv => !bv)).length
  let survTargets := applyMask choice indx
  let useFlags := (List.range stars1.length).map (fun i => decide (i ∈ survTargets))
  let au := annotate_used af.1 stars1 useFlags
  (au.1, au.2, ⟨fitStars, shapes2, errors2, cutCount, useFlags⟩)

/-
OpticalWavefrontPSF.chi2_gradient (optatmo.py lines 1396-1528).

The 27 keys are `['r0', 'g1', 'g2', 'z04d', 'z04x', 'z04y', ..., 'z11d',
'z11x', 'z11y']` (lines 410-420): indices 0-2 are the atmosphere terms, and
from index 3 the Zernike groups follow in blocks of three (d, x, y), so for
k ≥ 3 the kind is d at k % 3 = 0, x at k % 3 = 1, y at k % 3 = 2.

The per-star chi2 rows (the `chi2_l` output of `self.chi2(stars,
full=True)` after `self.update_psf_params(**params)`) are abstracted as a
function `chi2fun` of the full 27-entry parameter vector.  The misalignment
convention of this file (line 688 of `_analytic_misalign_zernikes`) applies
a group's coefficients to the Zernike term as
`z + d + focal_x * y_coefficient + focal_y * x_coefficient`, which is what
links the x/y gradients to the delta gradient.
-/

/-- The kind of a key index. -/
inductive KeyKind where
  | base : KeyKind
  | zd : KeyKind
  | zx : KeyKind
  | zy : KeyKind
deriving DecidableEq

/-- Classify a key index per the layout of `self.keys`. -/
def keyKind (k : ℕ) : KeyKind :=
  if k < 3 then KeyKind.base
  else if k % 3 = 0 then KeyKind.zd
  else if k % 3 = 1 then KeyKind.zx
  else KeyKind.zy

/-- `self.step_sizes` (lines 399-409). -/
def step_sizes : List ℚ :=
  [1/10000, 1/10000, 1/10000,
   1/1000, 1/100000, 1/100000,
   1/1000, 1/100000, 1/100000,
   1/1000, 1/100000, 1/100000,
   1/1000, 1/100000, 1/100000,
   1/1000, 1/100000, 1/100000,
   1/1000, 1/100000, 1/100000,
   1/1000, 1/100000, 1/100000,
   1/1000, 1/100000, 1/100000]

/-- A per-star, per-shape gradient block (an `(Nstar, 3)` array). -/
def GradMat (n : ℕ) : Type := Fin n → Fin 3 → ℚ

/-- `np.zeros((len(stars), 3))`. -/
def zeroMat (n : ℕ) : GradMat n := fun _ _ => 0

/-- `params[key] = params[key] + term * step_size` (line 1483). -/
def paramShift (p : ℕ → ℚ) (k : ℕ) (delta : ℚ) : ℕ → ℚ :=
  fun i => if i = k then p i + delta else p i

/-- The symmetric two-point stencil for one key (lines 1468-1498): evaluate
the per-star chi2 rows at `key ± step`, combine with the stencil values
`[0.5, -0.5]`, and divide by the step. -/
def stencilGrad {n : ℕ} (chi2fun : (ℕ → ℚ) → GradMat n) (p : ℕ → ℚ)
    (step : ℚ) (k : ℕ) : GradMat n :=
  fun s j =>
    (chi2fun (paramShift p k step) s j * (1/2)
      + chi2fun (paramShift p k (-step)) s j * (-1/2)) / step

/-- One iteration of the `for key, step_size in zip(self.keys,
self.step_sizes)` loop (lines 1435-1498), acting on `gradients_l` held in
reverse order, so `gradients_l[-1]` is the head and `gradients_l[-2]` the
next entry: `calculate_all` forces a stencil; a `z*d` key gets a stencil
unless it and both its partners are fixed (then zeros); any other fixed key
gets zeros; a free `z*x` key reuses `gradients_l[-1] * fy[:, None]`; a free
`z*y` key reuses `gradients_l[-2] * fx[:, None]`; the remaining keys (free
`r0`, `g1`, `g2`) get stencils. -/
def gradStep {n : ℕ} (calcAll : Bool) (fix : ℕ → Bool)
    (chi2fun : (ℕ → ℚ) → GradMat n) (p : ℕ → ℚ) (fx fy : Fin n → ℚ)
    (acc : List (GradMat n)) (k : ℕ) : List (GradMat n) :=
  if calcAll then stencilGrad chi2fun p (step_sizes.getD k 0) k :: acc
  else if keyKind k = KeyKind.zd then
    (if fix k = false ∨ fix (k+1) = false ∨ fix (k+2) = false then
      stencilGrad chi2fun p (step_sizes.getD k 0) k :: acc
     else zeroMat n :: acc)
  else if fix k then zeroMat n :: acc
  else if keyKind k = KeyKind.zx then
    (fun s j => (acc.headD (zeroMat n)) s j * fy s) :: acc
  else if keyKind k = KeyKind.zy then
    (fun s j => ((acc.drop 1).headD (zeroMat n)) s j * fx s) :: acc
  else stencilGrad chi2fun p (step_sizes.getD k 0) k :: acc

/-- The full loop over the 27 keys, building `gradients_l` in reverse. -/
def gradientsRev {n : ℕ} (calcAll : Bool) (fix : ℕ → Bool)
    (chi2fun : (ℕ → ℚ) → GradMat n) (p : ℕ → ℚ) (fx fy : Fin n → ℚ) :
    List (GradMat n) :=
  (List.range 27).foldl (gradStep calcAll fix chi2fun p fx fy) []

/-- `gradients_l` in forward key order. -/
def gradientsList {n : ℕ} (calcAll : Bool) (fix : ℕ → Bool)
    (chi2fun : (ℕ → ℚ) → GradMat n) (p : ℕ → ℚ) (fx fy : Fin n → ℚ) :
    List (GradMat n) :=
  (gradientsRev calcAll fix chi2fun p fx fy).reverse

/-- The final reduction (line 1505):
`gradients = np.sum(self.weights[None] * np.nansum(gradients_l, axis=1),
axis=1) * 1. / np.sum(self.weights)` (no NaN arises over ℚ, so `nansum`
sums over stars). -/
def gradVec {n : ℕ} (w : Fin 3 → ℚ) (calcAll : Bool) (fix : ℕ → Bool)
    (chi2fun : (ℕ → ℚ) → GradMat n) (p : ℕ → ℚ) (fx fy : Fin n → ℚ)
    (k : ℕ) : ℚ :=
  (∑ j : Fin 3, w j
    * (∑ s : Fin n,
        (gradientsList calcAll fix chi2fun p fx fy).getD k (zeroMat n) s j))
    / (∑ j : Fin 3, w j)

/-- The per-key closed form of the loop's entries, proved equal to the loop
below: under `calculate_all` every key gets its stencil; otherwise a `z*d`
key gets its stencil unless its whole group is fixed, any other fixed key
gets zeros, and a free `z*x` / `z*y` key reuses the group's delta stencil
scaled by `fy` / `fx` respectively. -/
def entrySpec {n : ℕ} (calcAll : Bool) (fix : ℕ → Bool)
    (chi2fun : (ℕ → ℚ) → GradMat n) (p : ℕ → ℚ) (fx fy : Fin n → ℚ)
    (k : ℕ) : GradMat n :=
  if calcAll then stencilGrad chi2fun p (step_sizes.getD k 0) k
  else
    match keyKind k with
    | KeyKind.base =>
      if fix k then zeroMat n else stencilGrad chi2fun p (step_sizes.getD k 0) k
    | KeyKind.zd =>
      if fix k = true ∧ fix (k+1) = true ∧ fix (k+2) = true then zeroMat n
      else stencilGrad chi2fun p (step_sizes.getD k 0) k
    | KeyKind.zx =>
      if fix k then zeroMat n
      else fun s j => stencilGrad chi2fun p (step_sizes.getD (k-1) 0) (k-1) s j * fy s
    | KeyKind.zy =>
      if fix k then zeroMat n
      else fun s j => stencilGrad chi2fun p (step_sizes.getD (k-2) 0) (k-2) s j * fx s

/-- Concrete one-star instance for exercising `chi2_gradient`: the star sits
at focal coordinates `(fx, fy) = (2, 3)`, and the chi2 rows depend on the
parameters through the z04 group exactly per the misalignment law of line
688: `z04d + fy * z04x + fx * z04y = q 3 + 3 * q 4 + 2 * q 5`. -/
def cChi : (ℕ → ℚ) → GradMat 1 := fun q _ _ => q 3 + 3 * q 4 + 2 * q 5

/-- The affine coefficients of `cChi`. -/
def cC : ℕ → Fin 1 → Fin 3 → ℚ := fun i _ _ =>
  if i = 3 then 1 else if i = 4 then 3 else if i = 5 then 2 else 0

/-- Fix flags: only `z04x` and `z04y` are free; in particular `z04d` is
fixed while its partners are free. -/
def cFix : ℕ → Bool := fun k => decide (k ≠ 4 ∧ k ≠ 5)

/-- Focal x coordinate of the one star. -/
def cFx : Fin 1 → ℚ := fun _ => 2

/-- Focal y coordinate of the one star. -/
def cFy : Fin 1 → ℚ := fun _ => 3

/-- Normalized shape weights. -/
def cW : Fin 3 → ℚ := fun _ => 1/3

/-- The parameter vector at which the gradient is taken. -/
def cP : ℕ → ℚ := fun _ => 0

/-
=============================== THEOREMS ===============================
-/

/-- Multiplying every element of a list scales its sum. -/
theorem sum_map_mul (k : ℚ) (l : List ℚ) :
    (l.map (fun x => k * x)).sum = k * l.sum := by
  induction l with
  | nil => simp
  | cons x xs ih => simp [ih, mul_add]

/-- Scaling the right factor of a pointwise product scales the product. -/
theorem prodL_map_right (k : ℚ) (a b : List ℚ) :
    prodL a (b.map (fun x => k * x)) = (prodL a b).map (fun x => k * x) := by
  induction a generalizing b with
  | nil => simp [prodL]
  | cons x xs ih =>
    cases b with
    | nil => simp [prodL]
    | cons y ys =>
      simp only [prodL, List.map_cons, List.zipWith_cons_cons] at *
      rw [ih]
      congr 1
      ring

/-- Scaling the left factor of a pointwise product scales the product. -/
theorem prodL_map_left (k : ℚ) (a b : List ℚ) :
    prodL (a.map (fun x => k * x)) b = (prodL a b).map (fun x => k * x) := by
  induction a generalizing b with
  | nil => simp [prodL]
  | cons x xs ih =>
    cases b with
    | nil => simp [prodL]
    | cons y ys =>
      simp only [prodL, List.map_cons, List.zipWith_cons_cons] at *
      rw [ih]
      congr 1
      ring

/-- `wsum` is linear in a scaled third argument. -/
theorem wsum_map_right (k : ℚ) (w d m : List ℚ) :
    wsum w d (m.map (fun x => k * x)) = k * wsum w d m := by
  unfold wsum
  rw [prodL_map_right, prodL_map_right, sum_map_mul]

/-- `wsum` is quadratic in a scaled squared argument. -/
theorem wsum_map_sq (k : ℚ) (w m : List ℚ) :
    wsum w (m.map (fun x => k * x)) (m.map (fun x => k * x))
      = k * (k * wsum w m m) := by
  unfold wsum
  rw [prodL_map_right, prodL_map_left, prodL_map_right, prodL_map_right,
      sum_map_mul, sum_map_mul]

/-- Claim C9: `update_psf_params` treats NaN as a leave-unchanged sentinel:
for `r0`, `g1`, `g2` and each misalignment entry, a NaN argument keeps the
previous value and any non-NaN argument (including `None` for `r0`/`g1`/`g2`)
overwrites it; apart from the call counter, no other model or interpolator
state is modified. -/
theorem update_psf_params_nan_sentinel {α : Type} (r0 g1 g2 : PyVal)
    (z : Fin 8 → Fin 3 → Val) (st : OptModelState α) :
    (update_psf_params r0 g1 g2 z st).kolmogorov_r0
        = (if r0 = PyVal.nan then st.kolmogorov_r0 else r0)
    ∧ (update_psf_params r0 g1 g2 z st).kwargs_r0
        = (if r0 = PyVal.nan then st.kwargs_r0 else r0)
    ∧ (update_psf_params r0 g1 g2 z st).g1 = (if g1 = PyVal.nan then st.g1 else g1)
    ∧ (update_psf_params r0 g1 g2 z st).g2 = (if g2 = PyVal.nan then st.g2 else g2)
    ∧ (∀ i j, (update_psf_params r0 g1 g2 z st).misalignment i j
        = (if z i j = Val.nan then st.misalignment i j else z i j))
    ∧ (update_psf_params r0 g1 g2 z st).n_iter = st.n_iter + 1
    ∧ (update_psf_params r0 g1 g2 z st).rest = st.rest := by
  unfold update_psf_params
  cases r0 <;> cases g1 <;> cases g2 <;>
    simp [PyVal.selfEq] <;>
    (intro i j; cases hz : z i j <;> simp [Val.selfEq, hz])

/-- Claim C10: the unreduced chi-square is invariant under positive rescaling
of the raw shape-weight vector handed to the constructor, because the
constructor normalizes the weights to unit sum. -/
theorem chi2_weight_rescale_invariant (c : ℚ) (w : Fin 3 → ℚ) (ee : ℚ)
    (rows : List ShapeRow) (hc : 0 < c) (_hw : (∑ i : Fin 3, w i) ≠ 0) :
    psf_chi2 (fun i => c * w i) ee rows = psf_chi2 w ee rows := by
  have hnw : normalize_weights (fun i => c * w i) = normalize_weights w := by
    funext j
    unfold normalize_weights
    rw [← Finset.mul_sum, mul_div_mul_left _ _ (ne_of_gt hc)]
  unfold psf_chi2
  rw [hnw]

/-- Witness for C10 at `c = 2`, `w = (1, 1, 1)`, one concrete star row. -/
theorem chi2_weight_rescale_invariant_witness :
    (0 : ℚ) < 2 ∧ (∑ i : Fin 3, (fun _ : Fin 3 => (1 : ℚ)) i) ≠ 0 ∧
    psf_chi2 (fun i => 2 * (fun _ : Fin 3 => (1 : ℚ)) i) (1 / 100)
        [⟨fun _ => Val.num 1, fun _ => Val.num 0, fun _ => Val.num 1⟩]
      = psf_chi2 (fun _ : Fin 3 => (1 : ℚ)) (1 / 100)
        [⟨fun _ => Val.num 1, fun _ => Val.num 0, fun _ => Val.num 1⟩] :=
  ⟨by norm_num, by norm_num [Fin.sum_univ_three],
   chi2_weight_rescale_invariant 2 (fun _ => 1) (1 / 100)
     [⟨fun _ => Val.num 1, fun _ => Val.num 0, fun _ => Val.num 1⟩]
     (by norm_num) (by norm_num [Fin.sum_univ_three])⟩

/-- Claim C3: when the re-measured model moments carry a zero status flag,
`moment_fit` returns exactly the moment-mismatch updates: flux scaled by
`data_flux / model_flux`, centroid shifted by the centroid difference, size
scaled by `data_size / model_size`, and the shear updated by composing the
old shear with the shear-composition difference of data and model shapes. -/
theorem moment_fit_updates (fmc : Bool) (dataM modelM : Moments) (flag : ℤ)
    (fitFlux : ℚ) (fitCenter : ℚ × ℚ) (fitP : FitParams)
    (du dv scale pg1 pg2 : ℚ)
    (hflag : flag = 0)
    (hread : readParams fmc fitP fitCenter = some (du, dv, scale, pg1, pg2)) :
    moment_fit fmc dataM modelM flag fitFlux fitCenter fitP =
      Except.ok (fitFlux * (dataM.flux / modelM.flux),
                 du + (dataM.cenu - modelM.cenu),
                 dv + (dataM.cenv - modelM.cenv),
                 scale * (dataM.size / modelM.size),
                 (shear_add ⟨pg1, pg2⟩
                   (shear_sub ⟨dataM.g1, dataM.g2⟩ ⟨modelM.g1, modelM.g2⟩)).re,
                 (shear_add ⟨pg1, pg2⟩
                   (shear_sub ⟨dataM.g1, dataM.g2⟩ ⟨modelM.g1, modelM.g2⟩)).im) := by
  unfold moment_fit
  rw [hflag, hread]
  simp

/-- Witness for C3: a concrete star whose shear update genuinely exercises
the composition operator (the result differs from componentwise addition). -/
theorem moment_fit_updates_witness :
    (0 : ℤ) = 0 ∧
    readParams true (FitParams.centered 1 (1 / 10) 0) (2, 3)
      = some (2, 3, 1, 1 / 10, 0) ∧
    moment_fit true ⟨10, 1, 1, 2, 2 / 10, 1 / 10⟩ ⟨5, 0, 0, 1, 0, 0⟩ 0
        1 (2, 3) (FitParams.centered 1 (1 / 10) 0) =
      Except.ok (1 * (10 / 5), 2 + (1 - 0), 3 + (1 - 0), 1 * (2 / 1),
                 (shear_add ⟨1 / 10, 0⟩
                   (shear_sub ⟨2 / 10, 1 / 10⟩ ⟨0, 0⟩)).re,
                 (shear_add ⟨1 / 10, 0⟩
                   (shear_sub ⟨2 / 10, 1 / 10⟩ ⟨0, 0⟩)).im) :=
  ⟨rfl, rfl,
   moment_fit_updates true ⟨10, 1, 1, 2, 2 / 10, 1 / 10⟩ ⟨5, 0, 0, 1, 0, 0⟩ 0
     1 (2, 3) (FitParams.centered 1 (1 / 10) 0) 2 3 1 (1 / 10) 0 rfl rfl⟩

/-- Claim C8: `_measure_shape_errors` never raises for a star whose per-star
kernel fit fails with one of the caught exception kinds: it records a NaN
triple for that star and continues, returning one triple per input star
(`List.Forall₂` forces equal lengths and positional correspondence). -/
theorem measure_shape_errors_catches {α : Type}
    (f : α → Except HsmErrKind (ℚ × ℚ × ℚ × ℚ × ℚ × ℚ)) (stars : List α) :
    List.Forall₂ (fun s r =>
        (∀ e, f s = Except.error e → r = (Val.nan, Val.nan, Val.nan)) ∧
        (∀ sf su sv se0 se1 se2, f s = Except.ok (sf, su, sv, se0, se1, se2) →
            r = (Val.num se0, Val.num se1, Val.num se2)))
      stars (measure_shape_errors f stars) := by
  induction stars with
  | nil => exact List.Forall₂.nil
  | cons s ss ih =>
    refine List.Forall₂.cons ⟨?_, ?_⟩ ih
    · intro e he
      simp [measure_shape_errors, he]
    · intro sf su sv se0 se1 se2 he
      simp [measure_shape_errors, he]

/-- Projections of the no-center reflux: weight, image, params, center are
carried over and the flux is scaled by the closed-form ratio. -/
theorem refluxNC_proj (render : RenderFn) (s : StarR) :
    (refluxNC render s).weight = s.weight
    ∧ (refluxNC render s).image = s.image
    ∧ (refluxNC render s).fit.params = s.fit.params
    ∧ (refluxNC render s).fit.center = s.fit.center
    ∧ (refluxNC render s).fit.flux
        = s.fit.flux * flux_quot s.weight s.image
            (render s.fit.params s.fit.center s.fit.flux) :=
  ⟨rfl, rfl, rfl, rfl, rfl⟩

/-- Claim C4: with the center not refit (`fit_center=False`, or
`force_model_center=False`), `reflux` computes the new flux as the old flux
times the closed-form single ratio `Σ(w·data·model) / Σ(w·model²)`, with no
iteration, leaving params and center unchanged and setting
`dof = count_nonzero(weight) - 1`. -/
theorem reflux_closed_form (lmfitRes : StarR → OptimizerResult) (render : RenderFn)
    (fit_center fmc : Bool) (s : StarR)
    (hbranch : (fit_center && fmc) = false)
    (_hden : wsum s.weight (render s.fit.params s.fit.center s.fit.flux)
               (render s.fit.params s.fit.center s.fit.flux) ≠ 0) :
    (reflux lmfitRes render fit_center fmc s).fit.flux
        = s.flux * flux_quot s.weight s.image
            (render s.fit.params s.fit.center s.fit.flux)
    ∧ (reflux lmfitRes render fit_center fmc s).fit.params = s.fit.params
    ∧ (reflux lmfitRes render fit_center fmc s).fit.center = s.fit.center
    ∧ (reflux lmfitRes render fit_center fmc s).fit.dof
        = some (countNonzero s.weight - 1) := by
  rw [reflux, hbranch]
  exact ⟨rfl, rfl, rfl, rfl⟩

/-- Witness for C4: one pixel with weight 1, data 2, rendered model 1;
the flux 5 is rescaled by the ratio 2. -/
theorem reflux_closed_form_witness :
    ((false && true) = false
    ∧ wsum [(1 : ℚ)] [(1 : ℚ)] [(1 : ℚ)] ≠ 0)
    ∧ (reflux (fun _ => ⟨0, 0, 0, 0, 0, 0, 0⟩) (fun _ _ _ => [(1 : ℚ)]) false true
        ⟨Option.none, [], [2], [1],
         ⟨Option.none, 5, (0, 0), Option.none, Option.none, Option.none,
          Option.none⟩⟩).fit.flux
      = StarR.flux ⟨Option.none, [], [2], [1],
         ⟨Option.none, 5, (0, 0), Option.none, Option.none, Option.none,
          Option.none⟩⟩ * flux_quot [1] [2] [1] :=
  ⟨⟨rfl, by norm_num [wsum, prodL]⟩,
   (reflux_closed_form (fun _ => ⟨0, 0, 0, 0, 0, 0, 0⟩) (fun _ _ _ => [(1 : ℚ)])
     false true
     ⟨Option.none, [], [2], [1],
      ⟨Option.none, 5, (0, 0), Option.none, Option.none, Option.none,
       Option.none⟩⟩
     rfl (by norm_num [wsum, prodL])).1⟩

/-- Claim C5: reflux with the center not refit is a fixed point under
immediate repetition: when the model image scales linearly with flux, the
second flux ratio is exactly 1 in exact arithmetic, so the flux is
unchanged. -/
theorem reflux_fixed_point (lmfitRes : StarR → OptimizerResult)
    (render : RenderFn) (fmc : Bool) (s : StarR)
    (hlin : ∀ pr c f, render pr c f = (render pr c 1).map (fun x => f * x))
    (hden : wsum s.weight (render s.fit.params s.fit.center s.fit.flux)
              (render s.fit.params s.fit.center s.fit.flux) ≠ 0)
    (hfr : flux_quot s.weight s.image
             (render s.fit.params s.fit.center s.fit.flux) ≠ 0) :
    flux_quot (reflux lmfitRes render false fmc s).weight
        (reflux lmfitRes render false fmc s).image
        (render (reflux lmfitRes render false fmc s).fit.params
                (reflux lmfitRes render false fmc s).fit.center
                (reflux lmfitRes render false fmc s).fit.flux) = 1
    ∧ (reflux lmfitRes render false fmc
         (reflux lmfitRes render false fmc s)).fit.flux
        = (reflux lmfitRes render false fmc s).fit.flux := by
  have hr : ∀ t, reflux lmfitRes render false fmc t = refluxNC render t := by
    intro t
    simp [reflux]
  simp only [hr]
  have hm1 : render s.fit.params s.fit.center s.fit.flux
      = (render s.fit.params s.fit.center 1).map (fun x => s.fit.flux * x) :=
    hlin _ _ _
  rw [hm1] at hden hfr
  rw [wsum_map_sq] at hden
  have hf : s.fit.flux ≠ 0 := fun h => hden (by rw [h]; ring)
  have hB : wsum s.weight (render s.fit.params s.fit.center 1)
      (render s.fit.params s.fit.center 1) ≠ 0 := fun h => hden (by rw [h]; ring)
  have hfrval : flux_quot s.weight s.image
      ((render s.fit.params s.fit.center 1).map (fun x => s.fit.flux * x))
      = s.fit.flux * wsum s.weight s.image (render s.fit.params s.fit.center 1)
        / (s.fit.flux * (s.fit.flux
            * wsum s.weight (render s.fit.params s.fit.center 1)
                (render s.fit.params s.fit.center 1))) := by
    unfold flux_quot
    rw [wsum_map_right, wsum_map_sq]
  rw [hfrval] at hfr
  have hA : wsum s.weight s.image (render s.fit.params s.fit.center 1) ≠ 0 := by
    intro h
    apply hfr
    rw [h]
    simp
  have hx1 : (refluxNC render s).fit.flux
      = s.fit.flux
        * (s.fit.flux * wsum s.weight s.image (render s.fit.params s.fit.center 1)
          / (s.fit.flux * (s.fit.flux
              * wsum s.weight (render s.fit.params s.fit.center 1)
                  (render s.fit.params s.fit.center 1)))) := by
    show s.fit.flux
        * flux_quot s.weight s.image
            (render s.fit.params s.fit.center s.fit.flux) = _
    rw [hm1, hfrval]
  have key : flux_quot (refluxNC render s).weight (refluxNC render s).image
      (render (refluxNC render s).fit.params (refluxNC render s).fit.center
        (refluxNC render s).fit.flux) = 1 := by
    have hw1 : (refluxNC render s).weight = s.weight := rfl
    have hi1 : (refluxNC render s).image = s.image := rfl
    have hp1 : (refluxNC render s).fit.params = s.fit.params := rfl
    have hc1 : (refluxNC render s).fit.center = s.fit.center := rfl
    rw [hw1, hi1, hp1, hc1, hx1, hlin s.fit.params s.fit.center _]
    unfold flux_quot
    rw [wsum_map_right, wsum_map_sq]
    field_simp
    ring
  refine ⟨key, ?_⟩
  show (refluxNC render s).fit.flux
      * flux_quot (refluxNC render s).weight (refluxNC render s).image
          (render (refluxNC render s).fit.params (refluxNC render s).fit.center
            (refluxNC render s).fit.flux)
    = (refluxNC render s).fit.flux
  rw [key, mul_one]

/-- Witness for C5: one pixel, weight 1, data 2, unit-flux model `[1]`,
star flux 5; the first reflux scales the flux to 2 and the second leaves
it at 2. -/
theorem reflux_fixed_point_witness :
    ((∀ pr c f, (fun (_ : Option FitParams) (_ : ℚ × ℚ) (fl : ℚ) => [fl]) pr c f
        = ((fun (_ : Option FitParams) (_ : ℚ × ℚ) (fl : ℚ) => [fl]) pr c 1).map
            (fun x => f * x))
    ∧ wsum [(1 : ℚ)] [(5 : ℚ)] [(5 : ℚ)] ≠ 0
    ∧ flux_quot [(1 : ℚ)] [(2 : ℚ)] [(5 : ℚ)] ≠ 0)
    ∧ (reflux (fun _ => ⟨0, 0, 0, 0, 0, 0, 0⟩)
        (fun (_ : Option FitParams) (_ : ℚ × ℚ) (fl : ℚ) => [fl]) false true
        (reflux (fun _ => ⟨0, 0, 0, 0, 0, 0, 0⟩)
          (fun (_ : Option FitParams) (_ : ℚ × ℚ) (fl : ℚ) => [fl]) false true
          ⟨Option.none, [], [2], [1],
           ⟨Option.none, 5, (0, 0), Option.none, Option.none, Option.none,
            Option.none⟩⟩)).fit.flux
      = (reflux (fun _ => ⟨0, 0, 0, 0, 0, 0, 0⟩)
          (fun (_ : Option FitParams) (_ : ℚ × ℚ) (fl : ℚ) => [fl]) false true
          ⟨Option.none, [], [2], [1],
           ⟨Option.none, 5, (0, 0), Option.none, Option.none, Option.none,
            Option.none⟩⟩).fit.flux :=
  ⟨⟨fun _ _ f => by norm_num, by norm_num [wsum, prodL],
    by norm_num [flux_quot, wsum, prodL]⟩,
   (reflux_fixed_point (fun _ => ⟨0, 0, 0, 0, 0, 0, 0⟩)
     (fun (_ : Option FitParams) (_ : ℚ × ℚ) (fl : ℚ) => [fl]) true
     ⟨Option.none, [], [2], [1],
      ⟨Option.none, 5, (0, 0), Option.none, Option.none, Option.none,
       Option.none⟩⟩
     (fun _ _ f => by norm_num) (by norm_num [wsum, prodL])
     (by norm_num [flux_quot, wsum, prodL])).2⟩

/-- Claim C6: in both fitting modes, `GSObjectModel.fit` recomputes the
reported chi-square as `Σ w·(data − model)²` from a fresh rendering at the
returned best-fit values, and sets `dof = count_nonzero(weight) − nparams`
with `nparams = 3` when the model center is forced and `5` otherwise; the
optimizer's internal chi-square bookkeeping is ignored. -/
theorem fit_recomputes_chisq_dof (fmc : Bool) (render : RenderFn)
    (r : OptimizerResult) (s : StarR) :
    (fit_tail fmc render (optTuple r) s).fit.chisq
        = some ((prodL s.weight
            ((subL s.image
              (render (some (fit_pack fmc (optTuple r)).1)
                (fit_pack fmc (optTuple r)).2 r.flux)).map
              (fun x => x * x))).sum)
    ∧ (fit_tail fmc render (optTuple r) s).fit.dof
        = some (countNonzero s.weight - (if fmc then 3 else 5))
    ∧ ∀ q, fit_tail fmc render (optTuple { r with internalChisq := q }) s
        = fit_tail fmc render (optTuple r) s :=
  ⟨rfl, rfl, fun _ => rfl⟩

/-- `with_hsm` never writes to a caller-visible properties dict. -/
theorem with_hsm_heap (v : StarR → Moments × ℤ) (h : Heap) (s : StarR) :
    (with_hsm v h s).1 = h := rfl

/-- `initialize` (modelled by `initStar`) never writes to a caller-visible
properties dict. -/
theorem initStar_heap (c : Collab) (fmc : Bool) (h : Heap) (s : StarR) :
    (initStar c fmc h s).1 = h := by
  dsimp only [initStar, with_hsm]
  repeat' split
  all_goals rfl

/-- `fit` never writes to a caller-visible properties dict. -/
theorem fit_fast_heap (c : Collab) (fmc : Bool) (h : Heap) (s : StarR) :
    (fit_fast c fmc h s).1 = h := by
  dsimp only [fit_fast]
  split
  · exact initStar_heap c fmc h s
  · split <;> exact initStar_heap c fmc h s

/-- Claim C2 (amended): the per-star fitting operations of GSObjectModel —
`fit`, `initialize` and `reflux` — never mutate the caller's input Star:
each returns a new Star value and leaves every caller-visible properties
dict unchanged.  (The population-level `OpticalWavefrontPSF.fit`, by
contrast, annotates the input stars' properties in place; see the
counterexample theorem.) -/
theorem gsobject_ops_no_mutation (c : Collab) (fmc : Bool)
    (lmfitRes : StarR → OptimizerResult) (render : RenderFn)
    (fit_center : Bool) (h : Heap) (s : StarR) :
    (fit_fast c fmc h s).1 = h
    ∧ (initStar c fmc h s).1 = h
    ∧ (refluxH lmfitRes render fit_center fmc h s).1 = h :=
  ⟨fit_fast_heap c fmc h s, initStar_heap c fmc h s, rfl⟩

/-- Claim C2 is false as stated for the population-level fit: `_fit_init`
(the setup stage of `OpticalWavefrontPSF.fit`) mutates the caller's input
star in place.  Concretely, for a single star whose caller-visible
properties dict is empty, the dict is no longer empty after the call (it
gains `focal_x`, `focal_y` and `used_in_optical_wavefront`). -/
theorem population_fit_mutates_input :
    (fit_init (fun _ _ => Val.num 0) (fun _ _ => Val.num 0) (fun _ => 10)
        [1] [2] [0] ⟨fun _ => []⟩
        [⟨some 0, [], [], [],
          ⟨Option.none, 0, (0, 0), Option.none, Option.none, Option.none,
           Option.none⟩⟩]).1.props 0
      ≠ (Heap.mk (fun _ => [])).props 0 := by
  decide

/-- Zipping two maps of the same list is a map of the combined function. -/
theorem zipWith_map_same {α β γ δ : Type} (f : β → γ → δ) (g : α → β) (k : α → γ)
    (l : List α) :
    List.zipWith f (l.map g) (l.map k) = l.map (fun x => f (g x) (k x)) := by
  induction l with
  | nil => rfl
  | cons x xs ih => simp [ih]

/-- Masking a mapped list with a mapped mask filters and maps. -/
theorem applyMask_map {α β : Type} (f : α → β) (p : α → Bool) (l : List α) :
    applyMask (l.map f) (l.map p) = (l.filter p).map f := by
  induction l with
  | nil => rfl
  | cons x xs ih =>
    by_cases hx : p x = true <;> simp [applyMask, List.filter_cons, hx, ih]

/-- Masking a list with its own pointwise mask is filtering. -/
theorem applyMask_self_map {α : Type} (p : α → Bool) (l : List α) :
    applyMask l (l.map p) = l.filter p := by
  induction l with
  | nil => rfl
  | cons x xs ih =>
    by_cases hx : p x = true <;> simp [applyMask, List.filter_cons, hx, ih]

/-- The count of mask failures plus the count of survivors is the total. -/
theorem mask_count {α : Type} (p : α → Bool) (l : List α) :
    ((l.map p).filter (fun bv => !bv)).length + (l.filter p).length = l.length := by
  induction l with
  | nil => rfl
  | cons x xs ih =>
    by_cases hx : p x = true <;> simp [List.filter_cons, hx] <;> omega

/-- `annotate_focal` preserves the number of stars. -/
theorem annotate_focal_len (h : Heap) (ss : List StarR) (xs ys : List ℚ) :
    (annotate_focal h ss xs ys).2.length = ss.length := by
  induction ss generalizing h xs ys with
  | nil => cases xs <;> cases ys <;> rfl
  | cons s ss ih =>
    cases xs with
    | nil => rfl
    | cons x xs =>
      cases ys with
      | nil => rfl
      | cons y ys => simp [annotate_focal, ih]

/-- The star part of a property write: only the props field changes. -/
theorem writeProp_star (h : Heap) (s : StarR) (k : String) (v : PropVal) :
    (writeProp h s k v).2 = { s with props := setProp s.props k v } := by
  unfold writeProp
  cases s.dataId <;> rfl

/-- Positional effect of `annotate_used` on the returned star list. -/
theorem annotate_used_getD (ss : List StarR) :
    ∀ (h : Heap) (bs : List Bool) (i : ℕ), i < ss.length → i < bs.length →
    ((annotate_used h ss bs).2.getD i default)
      = { (ss.getD i default) with
          props := setProp (ss.getD i default).props "used_in_optical_wavefront"
                     (PropVal.b (bs.getD i false)) } := by
  induction ss with
  | nil =>
    intro h bs i h1 _
    exact absurd h1 (by simp)
  | cons s ss ih =>
    intro h bs i h1 h2
    cases bs with
    | nil => exact absurd h2 (by simp)
    | cons bv bs =>
      cases i with
      | zero => simp [annotate_used, writeProp_star]
      | succ n =>
        have hn1 : n < ss.length := by simpa using h1
        have hn2 : n < bs.length := by simpa using h2
        simp only [annotate_used, List.getD_cons_succ]
        exact ih _ bs n hn1 hn2

/-- Looking up the key of the head entry. -/
theorem lookup_cons_self (k : String) (v1 : PropVal) (l : Props) :
    List.lookup k ((k, v1) :: l) = some v1 := by
  simp [List.lookup]

/-- Looking up past a head entry with a different key. -/
theorem lookup_cons_ne (k k1 : String) (v1 : PropVal) (l : Props)
    (h : (k == k1) = false) :
    List.lookup k ((k1, v1) :: l) = List.lookup k l := by
  simp only [List.lookup, h]

/-- A key just written by `setProp` is looked up to the written value. -/
theorem lookup_setProp (k : String) (v : PropVal) (p : Props) :
    (setProp p k v).lookup k = some v := by
  induction p with
  | nil => simp [setProp, List.lookup]
  | cons kv rest ih =>
    obtain ⟨k1, v1⟩ := kv
    by_cases hk : k1 = k
    · subst hk
      have hsome : ((List.lookup k1 ((k1, v1) :: rest) : Option PropVal)).isSome := by
        rw [lookup_cons_self]
        rfl
      rw [setProp, if_pos hsome]
      simp only [List.map_cons, if_pos rfl]
      exact lookup_cons_self k1 v (rest.map (fun kv => if kv.1 = k1 then (k1, v) else kv))
    · have hhead : (k == k1) = false := by
        rw [beq_eq_false_iff_ne]
        exact fun hkk => hk hkk.symm
      by_cases hr : ((List.lookup k rest : Option PropVal)).isSome
      · have hsome : ((List.lookup k ((k1, v1) :: rest) : Option PropVal)).isSome := by
          rw [lookup_cons_ne k k1 v1 rest hhead]
          exact hr
        rw [setProp, if_pos hsome]
        rw [setProp, if_pos hr] at ih
        simp only [List.map_cons, if_neg hk]
        rw [lookup_cons_ne k k1 v1 _ hhead]
        exact ih
      · have hnone : ¬ ((List.lookup k ((k1, v1) :: rest) : Option PropVal)).isSome := by
          rw [lookup_cons_ne k k1 v1 rest hhead]
          exact hr
        rw [setProp, if_neg hnone]
        rw [setProp, if_neg hr] at ih
        show List.lookup k (((k1, v1) :: rest) ++ [(k, v)]) = some v
        rw [List.cons_append, lookup_cons_ne k k1 v1 _ hhead]
        exact ih

/-- `getD` on a mapped range evaluates the function. -/
theorem getD_map_range {α : Type} (f : ℕ → α) (dflt : α) (n i : ℕ) (hi : i < n) :
    ((List.range n).map f).getD i dflt = f i := by
  rw [List.getD_eq_getElem?_getD, List.getElem?_map, List.getElem?_range hi]
  rfl

/-- Claim C7: in the population-level fit setup, every subsampled star whose
measured shape or error row contains a NaN, or whose finite shape exceeds
the `max_shapes` threshold, is excluded from the fitting star set and from
the stored shape/error arrays; the logged cut count equals the number
actually filtered; every input star is annotated with a
`used_in_optical_wavefront` flag that is true exactly for the surviving
subsampled stars; and the (total) call proceeds with the survivors rather
than erroring out. -/
theorem fit_init_filtering (measS measE : StarR → Fin 3 → Val)
    (maxS : Fin 3 → ℚ) (fxs fys : List ℚ) (choice : List ℕ) (h : Heap)
    (stars : List StarR) :
    (fit_init measS measE maxS fxs fys choice h stars).2.2.fitStars
        = (subsample (annotate_focal h stars fxs fys).2 choice).filter
            (fun s => !starCut maxS (measS s) (measE s))
    ∧ (fit_init measS measE maxS fxs fys choice h stars).2.2.shapes
        = ((fit_init measS measE maxS fxs fys choice h stars).2.2.fitStars).map measS
    ∧ (fit_init measS measE maxS fxs fys choice h stars).2.2.errors
        = ((fit_init measS measE maxS fxs fys choice h stars).2.2.fitStars).map measE
    ∧ (fit_init measS measE maxS fxs fys choice h stars).2.2.cutCount
        + (fit_init measS measE maxS fxs fys choice h stars).2.2.fitStars.length
        = choice.length
    ∧ (∀ i : Fin stars.length,
        ((fit_init measS measE maxS fxs fys choice h stars).2.2.useFlags.getD
            i.val false = true
          ↔ (i.val ∈ choice ∧ starCut maxS
              (measS ((annotate_focal h stars fxs fys).2.getD i.val default))
              (measE ((annotate_focal h stars fxs fys).2.getD i.val default))
                = false)))
    ∧ (∀ i : Fin stars.length,
        ((((fit_init measS measE maxS fxs fys choice h stars).2.1.getD
            i.val default).props.lookup "used_in_optical_wavefront")
          = some (PropVal.b
              ((fit_init measS measE maxS fxs fys choice h stars).2.2.useFlags.getD
                i.val false)))) := by
  have hlen1 : (annotate_focal h stars fxs fys).2.length = stars.length :=
    annotate_focal_len h stars fxs fys
  refine ⟨?_, ?_, ?_, ?_, ?_, ?_⟩
  · show applyMask (subsample (annotate_focal h stars fxs fys).2 choice)
        (List.zipWith (fun sh er => !starCut maxS sh er)
          ((subsample (annotate_focal h stars fxs fys).2 choice).map measS)
          ((subsample (annotate_focal h stars fxs fys).2 choice).map measE))
      = (subsample (annotate_focal h stars fxs fys).2 choice).filter
          (fun s => !starCut maxS (measS s) (measE s))
    rw [zipWith_map_same, applyMask_self_map]
  · show applyMask
        ((subsample (annotate_focal h stars fxs fys).2 choice).map measS)
        (List.zipWith (fun sh er => !starCut maxS sh er)
          ((subsample (annotate_focal h stars fxs fys).2 choice).map measS)
          ((subsample (annotate_focal h stars fxs fys).2 choice).map measE))
      = (applyMask (subsample (annotate_focal h stars fxs fys).2 choice)
          (List.zipWith (fun sh er => !starCut maxS sh er)
            ((subsample (annotate_focal h stars fxs fys).2 choice).map measS)
            ((subsample (annotate_focal h stars fxs fys).2 choice).map measE))).map
          measS
    rw [zipWith_map_same, applyMask_map, applyMask_self_map]
  · show applyMask
        ((subsample (annotate_focal h stars fxs fys).2 choice).map measE)
        (List.zipWith (fun sh er => !starCut maxS sh er)
          ((subsample (annotate_focal h stars fxs fys).2 choice).map measS)
          ((subsample (annotate_focal h stars fxs fys).2 choice).map measE))
      = (applyMask (subsample (annotate_focal h stars fxs fys).2 choice)
          (List.zipWith (fun sh er => !starCut maxS sh er)
            ((subsample (annotate_focal h stars fxs fys).2 choice).map measS)
            ((subsample (annotate_focal h stars fxs fys).2 choice).map measE))).map
          measE
    rw [zipWith_map_same, applyMask_map, applyMask_self_map]
  · show ((List.zipWith (fun sh er => !starCut maxS sh er)
          ((subsample (annotate_focal h stars fxs fys).2 choice).map measS)
          ((subsample (annotate_focal h stars fxs fys).2 choice).map measE)).filter
            (fun bv => !bv)).length
        + (applyMask (subsample (annotate_focal h stars fxs fys).2 choice)
            (List.zipWith (fun sh er => !starCut maxS sh er)
              ((subsample (annotate_focal h stars fxs fys).2 choice).map measS)
              ((subsample (annotate_focal h stars fxs fys).2 choice).map
                measE))).length
      = choice.length
    rw [zipWith_map_same, applyMask_self_map, mask_count]
    simp [subsample]
  · intro i
    show ((List.range (annotate_focal h stars fxs fys).2.length).map
          (fun j => decide (j ∈ applyMask choice
            (List.zipWith (fun sh er => !starCut maxS sh er)
              ((subsample (annotate_focal h stars fxs fys).2 choice).map measS)
              ((subsample (annotate_focal h stars fxs fys).2 choice).map
                measE))))).getD i.val false = true ↔ _
    rw [getD_map_range _ _ _ _ (by rw [hlen1]; exact i.isLt)]
    simp only [zipWith_map_same, subsample, List.map_map]
    rw [applyMask_self_map]
    simp [List.mem_filter, Bool.not_eq_true', Function.comp]
  · intro i
    show ((annotate_used (annotate_focal h stars fxs fys).1
          (annotate_focal h stars fxs fys).2
          ((List.range (annotate_focal h stars fxs fys).2.length).map
            (fun j => decide (j ∈ applyMask choice
              (List.zipWith (fun sh er => !starCut maxS sh er)
                ((subsample (annotate_focal h stars fxs fys).2 choice).map measS)
                ((subsample (annotate_focal h stars fxs fys).2 choice).map
                  measE)))))).2.getD i.val default).props.lookup
        "used_in_optical_wavefront"
      = some (PropVal.b
          (((List.range (annotate_focal h stars fxs fys).2.length).map
            (fun j => decide (j ∈ applyMask choice
              (List.zipWith (fun sh er => !starCut maxS sh er)
                ((subsample (annotate_focal h stars fxs fys).2 choice).map measS)
                ((subsample (annotate_focal h stars fxs fys).2 choice).map
                  measE))))).getD i.val false))
    rw [annotate_used_getD (annotate_focal h stars fxs fys).2 _ _ i.val
        (by rw [hlen1]; exact i.isLt)
        (by simp only [List.length_map, List.length_range]
            rw [hlen1]; exact i.isLt)]
    exact lookup_setProp _ _ _

/-- Every configured step size is nonzero. -/
theorem step_sizes_ne_zero (k : ℕ) (hk : k < 27) : step_sizes.getD k 0 ≠ 0 := by
  interval_cases k <;> norm_num [step_sizes]

/-- The head of a reversed mapped range is the last mapped value. -/
theorem reverse_map_range_headD {α : Type} (f : ℕ → α) (d : α) (m : ℕ) (hm : 1 ≤ m) :
    (((List.range m).map f).reverse).headD d = f (m-1) := by
  obtain ⟨m1, rfl⟩ : ∃ m1, m = m1 + 1 := ⟨m - 1, by omega⟩
  rw [List.range_succ, List.map_append, List.reverse_append]
  simp

/-- The second entry of a reversed mapped range. -/
theorem reverse_map_range_drop_headD {α : Type} (f : ℕ → α) (d : α) (m : ℕ) (hm : 2 ≤ m) :
    ((((List.range m).map f).reverse).drop 1).headD d = f (m-2) := by
  obtain ⟨m1, rfl⟩ : ∃ m1, m = m1 + 2 := ⟨m - 2, by omega⟩
  rw [List.range_succ, List.map_append, List.reverse_append]
  simp only [List.map_cons, List.map_nil, List.reverse_singleton,
    List.singleton_append, List.drop_succ_cons, List.drop_zero]
  rw [reverse_map_range_headD f d (m1+1) (by omega)]
  congr 1

/-- Key classification: a `z*d` index. -/
theorem keyKind_zd (k : ℕ) (h1 : 3 ≤ k) (h2 : k % 3 = 0) : keyKind k = KeyKind.zd := by
  unfold keyKind
  rw [if_neg (by omega), if_pos h2]

/-- Bounds carried by a `z*x` classification. -/
theorem keyKind_zx_elim (k : ℕ) (h : keyKind k = KeyKind.zx) : 3 ≤ k ∧ k % 3 = 1 := by
  unfold keyKind at h
  by_cases h1 : k < 3
  · rw [if_pos h1] at h
    exact absurd h (by simp)
  · rw [if_neg h1] at h
    by_cases h2 : k % 3 = 0
    · rw [if_pos h2] at h
      exact absurd h (by simp)
    · rw [if_neg h2] at h
      by_cases h3 : k % 3 = 1
      · exact ⟨by omega, h3⟩
      · rw [if_neg h3] at h
        exact absurd h (by simp)

/-- Bounds carried by a `z*y` classification. -/
theorem keyKind_zy_elim (k : ℕ) (h : keyKind k = KeyKind.zy) : 3 ≤ k ∧ k % 3 = 2 := by
  unfold keyKind at h
  by_cases h1 : k < 3
  · rw [if_pos h1] at h
    exact absurd h (by simp)
  · rw [if_neg h1] at h
    by_cases h2 : k % 3 = 0
    · rw [if_pos h2] at h
      exact absurd h (by simp)
    · rw [if_neg h2] at h
      by_cases h3 : k % 3 = 1
      · rw [if_pos h3] at h
        exact absurd h (by simp)
      · rw [if_neg h3] at h
        have : k % 3 < 3 := Nat.mod_lt k (by omega)
        exact ⟨by omega, by omega⟩

/-- Key classification: a `z*x` index. -/
theorem keyKind_zx (k : ℕ) (h1 : 3 ≤ k) (h2 : k % 3 = 1) : keyKind k = KeyKind.zx := by
  unfold keyKind
  rw [if_neg (by omega), if_neg (by omega), if_pos h2]

/-- Key classification: a `z*y` index. -/
theorem keyKind_zy (k : ℕ) (h1 : 3 ≤ k) (h2 : k % 3 = 2) : keyKind k = KeyKind.zy := by
  unfold keyKind
  rw [if_neg (by omega), if_neg (by omega), if_neg (by omega)]

/-- The loop of `chi2_gradient` computes exactly the per-key closed form
`entrySpec`: each iteration appends one entry, so the negative indices
`gradients_l[-1]` and `gradients_l[-2]` seen by a `z*x` / `z*y` key are its
own group's delta and x entries. -/
theorem gradientsRev_spec {n : ℕ} (calcAll : Bool) (fix : ℕ → Bool)
    (chi2fun : (ℕ → ℚ) → GradMat n) (p : ℕ → ℚ) (fx fy : Fin n → ℚ)
    (m : ℕ) :
    (List.range m).foldl (gradStep calcAll fix chi2fun p fx fy) []
      = ((List.range m).map (entrySpec calcAll fix chi2fun p fx fy)).reverse := by
  induction m with
  | zero => rfl
  | succ m ih =>
    rw [List.range_succ, List.foldl_append, List.map_append, List.reverse_append, ih]
    simp only [List.foldl_cons, List.foldl_nil, List.map_cons, List.map_nil,
      List.reverse_singleton, List.singleton_append]
    cases calcAll with
    | true =>
      unfold gradStep entrySpec
      simp
    | false =>
      cases hK : keyKind m with
      | base =>
        unfold gradStep entrySpec
        cases hf : fix m <;> simp [hK, hf]
      | zd =>
        unfold gradStep entrySpec
        cases hb1 : fix m <;> cases hb2 : fix (m+1) <;> cases hb3 : fix (m+2) <;>
          simp [hK, hb1, hb2, hb3]
      | zx =>
        have hb := keyKind_zx_elim m hK
        have h41 : m - 1 + 1 = m := by omega
        have hKd : keyKind (m-1) = KeyKind.zd := keyKind_zd (m-1) (by omega) (by omega)
        cases hf : fix m with
        | true =>
          unfold gradStep entrySpec
          simp [hK, hf]
        | false =>
          have hhead : (((List.range m).map
                (entrySpec false fix chi2fun p fx fy)).reverse).headD (zeroMat n)
              = entrySpec false fix chi2fun p fx fy (m-1) :=
            reverse_map_range_headD _ _ m (by omega)
          have hspec : entrySpec false fix chi2fun p fx fy (m-1)
              = stencilGrad chi2fun p (step_sizes.getD (m-1) 0) (m-1) := by
            unfold entrySpec
            simp only [hKd, h41, hf, Bool.false_eq_true, if_false, and_false,
              false_and, and_false]
          have hstep : gradStep false fix chi2fun p fx fy
              (((List.range m).map (entrySpec false fix chi2fun p fx fy)).reverse) m
              = (fun s j => ((((List.range m).map
                  (entrySpec false fix chi2fun p fx fy)).reverse).headD
                    (zeroMat n)) s j * fy s)
                :: ((List.range m).map (entrySpec false fix chi2fun p fx fy)).reverse := by
            unfold gradStep
            rw [if_neg (by simp), if_neg (by rw [hK]; simp),
                if_neg (by rw [hf]; simp), if_pos hK]
          have hentry : entrySpec false fix chi2fun p fx fy m
              = fun s j => stencilGrad chi2fun p (step_sizes.getD (m-1) 0) (m-1) s j
                  * fy s := by
            unfold entrySpec
            rw [if_neg (by simp)]
            simp only [hK]
            rw [if_neg (by rw [hf]; simp)]
          rw [hstep, hentry]
          congr 1
          funext s j
          rw [hhead, hspec]
      | zy =>
        have hb := keyKind_zy_elim m hK
        have h42 : m - 2 + 2 = m := by omega
        have hKd : keyKind (m-2) = KeyKind.zd := keyKind_zd (m-2) (by omega) (by omega)
        cases hf : fix m with
        | true =>
          unfold gradStep entrySpec
          simp [hK, hf]
        | false =>
          have hhead : ((((List.range m).map
                (entrySpec false fix chi2fun p fx fy)).reverse).drop 1).headD (zeroMat n)
              = entrySpec false fix chi2fun p fx fy (m-2) :=
            reverse_map_range_drop_headD _ _ m (by omega)
          have hspec : entrySpec false fix chi2fun p fx fy (m-2)
              = stencilGrad chi2fun p (step_sizes.getD (m-2) 0) (m-2) := by
            unfold entrySpec
            simp only [hKd, h42, hf, Bool.false_eq_true, if_false, and_false,
              false_and, and_false]
          have hstep : gradStep false fix chi2fun p fx fy
              (((List.range m).map (entrySpec false fix chi2fun p fx fy)).reverse) m
              = (fun s j => (((((List.range m).map
                  (entrySpec false fix chi2fun p fx fy)).reverse).drop 1).headD
                    (zeroMat n)) s j * fx s)
                :: ((List.range m).map (entrySpec false fix chi2fun p fx fy)).reverse := by
            unfold gradStep
            rw [if_neg (by simp), if_neg (by rw [hK]; simp),
                if_neg (by rw [hf]; simp), if_neg (by rw [hK]; simp), if_pos hK]
          have hentry : entrySpec false fix chi2fun p fx fy m
              = fun s j => stencilGrad chi2fun p (step_sizes.getD (m-2) 0) (m-2) s j
                  * fx s := by
            unfold entrySpec
            rw [if_neg (by simp)]
            simp only [hK]
            rw [if_neg (by rw [hf]; simp)]
          rw [hstep, hentry]
          congr 1
          funext s j
          rw [hhead, hspec]

/-- `gradients_l` in key order realizes `entrySpec` at every key. -/
theorem gradientsList_getD {n : ℕ} (calcAll : Bool) (fix : ℕ → Bool)
    (chi2fun : (ℕ → ℚ) → GradMat n) (p : ℕ → ℚ) (fx fy : Fin n → ℚ)
    (k : ℕ) (hk : k < 27) :
    (gradientsList calcAll fix chi2fun p fx fy).getD k (zeroMat n)
      = entrySpec calcAll fix chi2fun p fx fy k := by
  unfold gradientsList gradientsRev
  rw [gradientsRev_spec, List.reverse_reverse]
  exact getD_map_range _ _ _ _ hk

/-- The symmetric two-point stencil is exact on chi2 rows affine in the
parameters: it recovers the linear coefficient of the stepped key. -/
theorem stencilGrad_affine {n : ℕ} (chi2fun : (ℕ → ℚ) → GradMat n)
    (A : Fin n → Fin 3 → ℚ) (C : ℕ → Fin n → Fin 3 → ℚ) (p : ℕ → ℚ)
    (step : ℚ) (k : ℕ)
    (hAff : ∀ q s j, chi2fun q s j = A s j + ∑ i ∈ Finset.range 27, C i s j * q i)
    (hk : k < 27) (hstep : step ≠ 0) :
    stencilGrad chi2fun p step k = fun s j => C k s j := by
  funext s j
  unfold stencilGrad
  rw [hAff, hAff]
  have hsum : ∀ delta : ℚ,
      (∑ i ∈ Finset.range 27, C i s j * paramShift p k delta i)
        = (∑ i ∈ Finset.range 27, C i s j * p i) + C k s j * delta := by
    intro delta
    have hterm : ∀ i ∈ Finset.range 27,
        C i s j * paramShift p k delta i
          = C i s j * p i + (if i = k then C i s j * delta else 0) := by
      intro i _
      unfold paramShift
      by_cases hik : i = k
      · simp [hik]
        ring
      · simp [hik]
    rw [Finset.sum_congr rfl hterm, Finset.sum_add_distrib,
        Finset.sum_ite_eq' (Finset.range 27) k (fun i => C i s j * delta)]
    simp [Finset.mem_range.mpr hk]
  rw [hsum step, hsum (-step)]
  field_simp
  ring

/-- Claim C1 (amended): for field-linear Zernike terms the algebraic
shortcut of `chi2_gradient` reuses the already-evaluated `z*d` per-star
gradient, multiplied by the star's focal_y coordinate for the `z*x` term
and by focal_x for the `z*y` term (matching the misalignment convention of
the source, where the x coefficient multiplies focal_y and the y
coefficient multiplies focal_x); when the per-star chi2 rows are affine in
the misaligned parameters, these shortcut entries equal the brute-force
two-point-stencil gradients obtained with `calculate_all=True`, exactly in
exact arithmetic.  A fixed parameter's gradient entry is zero, except that
a fixed `z*d` whose x or y partner is free still receives its full stencil
gradient (it is needed for the partners' shortcuts). -/
theorem chi2_gradient_shortcut {n : ℕ} (chi2fun : (ℕ → ℚ) → GradMat n)
    (p : ℕ → ℚ) (fix : ℕ → Bool) (fx fy : Fin n → ℚ) (w : Fin 3 → ℚ)
    (A : Fin n → Fin 3 → ℚ) (C : ℕ → Fin n → Fin 3 → ℚ) (g : ℕ) (hg : g < 8)
    (hAff : ∀ q s j, chi2fun q s j = A s j + ∑ i ∈ Finset.range 27, C i s j * q i)
    (hx : ∀ s j, C (3*g+4) s j = fy s * C (3*g+3) s j)
    (hy : ∀ s j, C (3*g+5) s j = fx s * C (3*g+3) s j) :
    (fix (3*g+4) = false →
      (gradientsList false fix chi2fun p fx fy).getD (3*g+4) (zeroMat n)
        = (fun s j => (gradientsList false fix chi2fun p fx fy).getD (3*g+3)
            (zeroMat n) s j * fy s)
      ∧ (gradientsList false fix chi2fun p fx fy).getD (3*g+4) (zeroMat n)
        = (gradientsList true fix chi2fun p fx fy).getD (3*g+4) (zeroMat n)
      ∧ gradVec w false fix chi2fun p fx fy (3*g+4)
        = gradVec w true fix chi2fun p fx fy (3*g+4))
    ∧ (fix (3*g+5) = false →
      (gradientsList false fix chi2fun p fx fy).getD (3*g+5) (zeroMat n)
        = (fun s j => (gradientsList false fix chi2fun p fx fy).getD (3*g+3)
            (zeroMat n) s j * fx s)
      ∧ (gradientsList false fix chi2fun p fx fy).getD (3*g+5) (zeroMat n)
        = (gradientsList true fix chi2fun p fx fy).getD (3*g+5) (zeroMat n)
      ∧ gradVec w false fix chi2fun p fx fy (3*g+5)
        = gradVec w true fix chi2fun p fx fy (3*g+5))
    ∧ (fix (3*g+4) = true →
      (gradientsList false fix chi2fun p fx fy).getD (3*g+4) (zeroMat n) = zeroMat n)
    ∧ (fix (3*g+5) = true →
      (gradientsList false fix chi2fun p fx fy).getD (3*g+5) (zeroMat n) = zeroMat n)
    ∧ ((fix (3*g+3) = true ∧ (fix (3*g+4) = false ∨ fix (3*g+5) = false)) →
      (gradientsList false fix chi2fun p fx fy).getD (3*g+3) (zeroMat n)
        = stencilGrad chi2fun p (step_sizes.getD (3*g+3) 0) (3*g+3)) := by
  have h3lt : 3*g+3 < 27 := by omega
  have h4lt : 3*g+4 < 27 := by omega
  have h5lt : 3*g+5 < 27 := by omega
  have kd : keyKind (3*g+3) = KeyKind.zd := keyKind_zd _ (by omega) (by omega)
  have kx : keyKind (3*g+4) = KeyKind.zx := keyKind_zx _ (by omega) (by omega)
  have ky : keyKind (3*g+5) = KeyKind.zy := keyKind_zy _ (by omega) (by omega)
  have e1 : 3*g+4-1 = 3*g+3 := by omega
  have e2 : 3*g+5-2 = 3*g+3 := by omega
  have e3 : 3*g+3+1 = 3*g+4 := by omega
  have e4 : 3*g+3+2 = 3*g+5 := by omega
  have gl3 := gradientsList_getD false fix chi2fun p fx fy (3*g+3) h3lt
  have gl4 := gradientsList_getD false fix chi2fun p fx fy (3*g+4) h4lt
  have gl5 := gradientsList_getD false fix chi2fun p fx fy (3*g+5) h5lt
  have gl4T := gradientsList_getD true fix chi2fun p fx fy (3*g+4) h4lt
  have gl5T := gradientsList_getD true fix chi2fun p fx fy (3*g+5) h5lt
  have sd := stencilGrad_affine chi2fun A C p (step_sizes.getD (3*g+3) 0) (3*g+3)
    hAff h3lt (step_sizes_ne_zero _ h3lt)
  have sx := stencilGrad_affine chi2fun A C p (step_sizes.getD (3*g+4) 0) (3*g+4)
    hAff h4lt (step_sizes_ne_zero _ h4lt)
  have sy := stencilGrad_affine chi2fun A C p (step_sizes.getD (3*g+5) 0) (3*g+5)
    hAff h5lt (step_sizes_ne_zero _ h5lt)
  refine ⟨?_, ?_, ?_, ?_, ?_⟩
  · intro hfx4
    have hentry4 : entrySpec false fix chi2fun p fx fy (3*g+4)
        = fun s j => stencilGrad chi2fun p (step_sizes.getD (3*g+3) 0) (3*g+3) s j
            * fy s := by
      unfold entrySpec
      rw [if_neg (by simp)]
      simp only [kx, e1]
      rw [if_neg (by rw [hfx4]; simp)]
    have hentry3 : entrySpec false fix chi2fun p fx fy (3*g+3)
        = stencilGrad chi2fun p (step_sizes.getD (3*g+3) 0) (3*g+3) := by
      unfold entrySpec
      rw [if_neg (by simp)]
      simp only [kd, e3, e4]
      rw [if_neg (by simp [hfx4])]
    have hentry4T : entrySpec true fix chi2fun p fx fy (3*g+4)
        = stencilGrad chi2fun p (step_sizes.getD (3*g+4) 0) (3*g+4) := by
      unfold entrySpec
      rw [if_pos rfl]
    have hkey2 : (gradientsList false fix chi2fun p fx fy).getD (3*g+4) (zeroMat n)
        = (gradientsList true fix chi2fun p fx fy).getD (3*g+4) (zeroMat n) := by
      rw [gl4, gl4T, hentry4, hentry4T, sd, sx]
      funext s j
      rw [hx]
      ring
    refine ⟨?_, hkey2, ?_⟩
    · rw [gl4, gl3, hentry4, hentry3]
    · unfold gradVec
      rw [hkey2]
  · intro hfx5
    have hentry5 : entrySpec false fix chi2fun p fx fy (3*g+5)
        = fun s j => stencilGrad chi2fun p (step_sizes.getD (3*g+3) 0) (3*g+3) s j
            * fx s := by
      unfold entrySpec
      rw [if_neg (by simp)]
      simp only [ky, e2]
      rw [if_neg (by rw [hfx5]; simp)]
    have hentry3 : entrySpec false fix chi2fun p fx fy (3*g+3)
        = stencilGrad chi2fun p (step_sizes.getD (3*g+3) 0) (3*g+3) := by
      unfold entrySpec
      rw [if_neg (by simp)]
      simp only [kd, e3, e4]
      rw [if_neg (by simp [hfx5])]
    have hentry5T : entrySpec true fix chi2fun p fx fy (3*g+5)
        = stencilGrad chi2fun p (step_sizes.getD (3*g+5) 0) (3*g+5) := by
      unfold entrySpec
      rw [if_pos rfl]
    have hkey2 : (gradientsList false fix chi2fun p fx fy).getD (3*g+5) (zeroMat n)
        = (gradientsList true fix chi2fun p fx fy).getD (3*g+5) (zeroMat n) := by
      rw [gl5, gl5T, hentry5, hentry5T, sd, sy]
      funext s j
      rw [hy]
      ring
    refine ⟨?_, hkey2, ?_⟩
    · rw [gl5, gl3, hentry5, hentry3]
    · unfold gradVec
      rw [hkey2]
  · intro hfx4
    rw [gl4]
    unfold entrySpec
    rw [if_neg (by simp)]
    simp only [kx]
    rw [if_pos hfx4]
  · intro hfx5
    rw [gl5]
    unfold entrySpec
    rw [if_neg (by simp)]
    simp only [ky]
    rw [if_pos hfx5]
  · rintro ⟨hfd, hpartner⟩
    rw [gl3]
    unfold entrySpec
    rw [if_neg (by simp)]
    simp only [kd, e3, e4]
    rcases hpartner with hp | hp <;> rw [if_neg (by simp [hp])]

/-- The concrete chi2 rows are affine with coefficients `cC`. -/
theorem cChi_affine : ∀ (q : ℕ → ℚ) (s : Fin 1) (j : Fin 3),
    cChi q s j = (fun (_ : Fin 1) (_ : Fin 3) => (0 : ℚ)) s j
      + ∑ i ∈ Finset.range 27, cC i s j * q i := by
  intro q s j
  simp [cChi, cC, Finset.sum_range_succ]

/-- At the concrete instance, the `z04d` entry of `gradients_l` is the
constant 1 even though `z04d` is fixed (its partners are free). -/
theorem cEntry3 : (gradientsList false cFix cChi cP cFx cFy).getD 3 (zeroMat 1)
    = fun _ _ => (1 : ℚ) := by
  rw [gradientsList_getD false cFix cChi cP cFx cFy 3 (by norm_num)]
  unfold entrySpec
  rw [if_neg (by simp)]
  have kd3 : keyKind 3 = KeyKind.zd := keyKind_zd 3 (by norm_num) (by norm_num)
  simp only [kd3]
  rw [if_neg (by decide)]
  rw [stencilGrad_affine cChi (fun _ _ => 0) cC cP _ 3 cChi_affine (by norm_num)
    (step_sizes_ne_zero 3 (by norm_num))]
  funext s j
  simp [cC]

/-- At the concrete instance, the shortcut `z04x` entry is the constant 3:
the delta entry (1) times focal_y (3). -/
theorem cEntry4 : (gradientsList false cFix cChi cP cFx cFy).getD 4 (zeroMat 1)
    = fun _ _ => (3 : ℚ) := by
  rw [gradientsList_getD false cFix cChi cP cFx cFy 4 (by norm_num)]
  unfold entrySpec
  rw [if_neg (by simp)]
  have kx4 : keyKind 4 = KeyKind.zx := keyKind_zx 4 (by norm_num) (by norm_num)
  simp only [kx4]
  rw [if_neg (by decide)]
  have h43 : (4 : ℕ) - 1 = 3 := by norm_num
  simp only [h43]
  rw [stencilGrad_affine cChi (fun _ _ => 0) cC cP _ 3 cChi_affine (by norm_num)
    (step_sizes_ne_zero 3 (by norm_num))]
  funext s j
  simp [cC, cFy]

/-- At the concrete instance, the shortcut `z04y` entry is the constant 2:
the delta entry (1) times focal_x (2). -/
theorem cEntry5 : (gradientsList false cFix cChi cP cFx cFy).getD 5 (zeroMat 1)
    = fun _ _ => (2 : ℚ) := by
  rw [gradientsList_getD false cFix cChi cP cFx cFy 5 (by norm_num)]
  unfold entrySpec
  rw [if_neg (by simp)]
  have ky5 : keyKind 5 = KeyKind.zy := keyKind_zy 5 (by norm_num) (by norm_num)
  simp only [ky5]
  rw [if_neg (by decide)]
  have h52 : (5 : ℕ) - 2 = 3 := by norm_num
  simp only [h52]
  rw [stencilGrad_affine cChi (fun _ _ => 0) cC cP _ 3 cChi_affine (by norm_num)
    (step_sizes_ne_zero 3 (by norm_num))]
  funext s j
  simp [cC, cFx]

/-- Claim C1 is false as stated: at a star with focal coordinates
`(fx, fy) = (2, 3)` and chi2 rows depending on the z04 group exactly per
the source's misalignment law (`z04d + fy * z04x + fx * z04y`), the
shortcut gradient entries are `(d, x, y) = (1, 3, 2)`: the x-term entry (3)
is focal_y times the delta entry, not focal_x times it (2), the y-term
entry (2) is focal_x times the delta entry, not focal_y times it (3), and
the fixed `z04d` parameter's entry is 1, not zero. -/
theorem chi2_gradient_claim_counterexample :
    cFix 3 = true
    ∧ cFx 0 = 2 ∧ cFy 0 = 3
    ∧ gradVec cW false cFix cChi cP cFx cFy 3 = 1
    ∧ gradVec cW false cFix cChi cP cFx cFy 4 = 3
    ∧ gradVec cW false cFix cChi cP cFx cFy 5 = 2
    ∧ gradVec cW false cFix cChi cP cFx cFy 3 ≠ 0
    ∧ gradVec cW false cFix cChi cP cFx cFy 4
        ≠ cFx 0 * gradVec cW false cFix cChi cP cFx cFy 3
    ∧ gradVec cW false cFix cChi cP cFx cFy 5
        ≠ cFy 0 * gradVec cW false cFix cChi cP cFx cFy 3 := by
  have hg3 : gradVec cW false cFix cChi cP cFx cFy 3 = 1 := by
    unfold gradVec
    rw [cEntry3]
    norm_num [cW, Fin.sum_univ_three, Fin.sum_univ_one]
  have hg4 : gradVec cW false cFix cChi cP cFx cFy 4 = 3 := by
    unfold gradVec
    rw [cEntry4]
    norm_num [cW, Fin.sum_univ_three, Fin.sum_univ_one]
  have hg5 : gradVec cW false cFix cChi cP cFx cFy 5 = 2 := by
    unfold gradVec
    rw [cEntry5]
    norm_num [cW, Fin.sum_univ_three, Fin.sum_univ_one]
  refine ⟨rfl, rfl, rfl, hg3, hg4, hg5, ?_, ?_, ?_⟩
  · rw [hg3]
    norm_num
  · rw [hg4, hg3]
    norm_num [cFx]
  · rw [hg5, hg3]
    norm_num [cFy]

/-- Witness for the amended C1 at the concrete one-star instance: the
shortcut `z04x` gradient equals the `calculate_all=True` brute-force
gradient. -/
theorem chi2_gradient_shortcut_witness :
    ((0 : ℕ) < 8 ∧ cFix (3*0+4) = false)
    ∧ gradVec cW false cFix cChi cP cFx cFy (3*0+4)
        = gradVec cW true cFix cChi cP cFx cFy (3*0+4) :=
  ⟨⟨by norm_num, rfl⟩,
   ((chi2_gradient_shortcut cChi cP cFix cFx cFy cW (fun _ _ => 0) cC 0
      (by norm_num) cChi_affine
      (by intro s j; norm_num [cC, cFy])
      (by intro s j; norm_num [cC, cFx])).1 rfl).2.2⟩
